import Mathlib

/-
Verification of the harvesting control core of the TwitterWebScrapping
repository.  The definitions below are a shallow embedding of the control
logic of the four collector scripts:

  - run_collect.py          (collect_by_typing, extract_one_article, parse_count)
  - attach_collect.py       (collect; same loop body as collect_by_typing)
  - run_collect_profile_ok.py (collect_for_hashtag, extract, recover, main)
  - final_collect_scipt.py  (scrape_query, extract_tweet, parse_count, main)

Selenium / DOM access, datetime parsing and pandas I/O are external
collaborators; they are abstracted to their results (an extracted row,
a parsed-timestamp option, a written list of rows).  All control decisions
(dedup keys, admission, target checks, counters, cooldowns, finalization)
are modelled exactly as the Python source computes them.
-/

/-- One extracted record ("row" in the scripts): the fields the control
logic reads.  Engagement counts, username and tag lists are payload that
no control decision inspects, so they are omitted from the state model;
the engagement parser itself is modelled separately as `parse_count`. -/
structure Row where
  tweet_id : String
  url : String
  content : String
  timestamp_utc : String
deriving DecidableEq, Repr

/-- Dedup key of run_collect.py:198, attach_collect.py:106 and
run_collect_profile_ok.py:180, literally
`data["tweet_id"] or data["url"] or (data["content"] + data["timestamp_utc"])`:
Python `or` picks the first non-empty string. -/
def rowKey (r : Row) : String :=
  if r.tweet_id ≠ "" then r.tweet_id
  else if r.url ≠ "" then r.url
  else r.content ++ r.timestamp_utc

/-- The streaming admission step the spec calls `admit`: in the source it is
the inline block `if key in seen: continue; seen.add(key); rows.append(data)`
(run_collect.py:199-201, attach_collect.py:107-109,
run_collect_profile_ok.py:181-185).  Returns whether the record is admitted
together with the updated seen-set. -/
def admission (seen : List String) (r : Row) : Bool × List String :=
  if rowKey r ∈ seen then (false, seen) else (true, rowKey r :: seen)

/-- Keep condition of extract_one_article (run_collect.py:125-126,
attach_collect.py:77-78): `if not content and not tweet_url: return None`;
every other extracted row is returned. -/
def extract_one_article_keep (r : Row) : Option Row :=
  if r.content = "" ∧ r.url = "" then none else some r

/-- One pass over the currently visible articles in collect_by_typing
(run_collect.py:193-204) and collect (attach_collect.py:102-112): items the
extractor dropped are `none`; an admitted row is appended and, once
`len(rows) >= limit`, the inner loop breaks. -/
def collect_round (limit : Nat) : List (Option Row) → List String → List Row →
    List String × List Row
  | [], seen, rows => (seen, rows)
  | none :: rest, seen, rows => collect_round limit rest seen rows
  | some r :: rest, seen, rows =>
    if rowKey r ∈ seen then collect_round limit rest seen rows
    else
      let rows' := rows ++ [r]
      if limit ≤ rows'.length then (rowKey r :: seen, rows')
      else collect_round limit rest (rowKey r :: seen) rows'

/-- The `while len(rows) < limit and scrolls < 120` loop of collect_by_typing
(run_collect.py:192-209); the finite list of per-round batches models the
scroll bound. -/
def collect_loop (limit : Nat) : List (List (Option Row)) → List String →
    List Row → List Row
  | [], _, rows => rows
  | batch :: batches, seen, rows =>
    if rows.length < limit then
      let out := collect_round limit batch seen rows
      collect_loop limit batches out.1 out.2
    else rows

/-- Result of running the extractor on one visible article, as the loop
bodies of final_collect_scipt.py and run_collect_profile_ok.py consume it:
`old` is the sentinel string "OLD", `rejected` is `None`, `fresh r` is an
extracted row dictionary. -/
inductive Extracted where
  | old
  | rejected
  | fresh (r : Row)
deriving DecidableEq, Repr

/-- Round-local and run-local counters of scrape_query
(final_collect_scipt.py:298-319): the id seen-set and row list are shared
across rounds, `oldCount` is the per-round `old_count`, `newCount` the
per-round `new_this_batch`. -/
structure ScrapeState where
  seen_ids : List String
  rows : List Row
  oldCount : Nat
  newCount : Nat
deriving DecidableEq, Repr

/-- The `for art in window` body of scrape_query
(final_collect_scipt.py:303-319): "OLD" bumps `old_count`; `None` is skipped
silently; a fresh row is admitted keyed on `tweet_id` alone, with no check
of the target inside the round. -/
def scrape_round : List Extracted → ScrapeState → ScrapeState
  | [], st => st
  | .old :: rest, st => scrape_round rest { st with oldCount := st.oldCount + 1 }
  | .rejected :: rest, st => scrape_round rest st
  | .fresh r :: rest, st =>
    if r.tweet_id ∈ st.seen_ids then scrape_round rest st
    else
      scrape_round rest
        { st with seen_ids := r.tweet_id :: st.seen_ids,
                  rows := st.rows ++ [r],
                  newCount := st.newCount + 1 }

/-- The `while len(rows) < target_total and scrolls < MAX_SCROLLS_PER_QUERY`
loop of scrape_query (final_collect_scipt.py:287-376), restricted to the
batch-processing path (the refresh / rate-limit `continue` branches neither
append rows nor touch the seen-set).  `new_this_batch` is reset at each round
entry. -/
def scrape_loop (target : Nat) : List (List Extracted) → ScrapeState → ScrapeState
  | [], st => st
  | batch :: batches, st =>
    if st.rows.length < target then
      scrape_loop target batches (scrape_round batch { st with newCount := 0 })
    else st

/-- Classification an extractor gives one item from its (already parsed)
timestamp, before any content checks. -/
inductive Gate where
  | rejected
  | old
  | fresh
deriving DecidableEq, Repr

/-- Timestamp gate of extract_tweet (final_collect_scipt.py:219-221):
`if not ts or ts < cutoff_time: return "OLD"` — an unparseable timestamp
(`parse_ts` returned `None`) takes the same "OLD" branch as a stale one.
`parse_ts` (ISO-8601 parsing via the datetime library) is abstracted to its
`Option` result, with instants as integers. -/
def ts_gate_combined (ts : Option Int) (cutoff : Int) : Gate :=
  match ts with
  | none => .old
  | some t => if t < cutoff then .old else .fresh

/-- Timestamp gate of extract (run_collect_profile_ok.py:90-97):
`if not ts: return None` precedes the 24-hour check, so an unparseable
timestamp is rejected and never classified "OLD". -/
def ts_gate_merged (ts : Option Int) (cutoff : Int) : Gate :=
  match ts with
  | none => .rejected
  | some t => if t < cutoff then .old else .fresh

/-- State of one collect_for_hashtag run
(run_collect_profile_ok.py:141-214). -/
structure TagState where
  seen : List String
  rows : List Row
  old_hits : Nat
  new_this_round : Nat
deriving DecidableEq, Repr

/-- The `for art in articles` body of collect_for_hashtag
(run_collect_profile_ok.py:170-192): "OLD" bumps `old_hits`, `None` is
skipped, a fresh row is admitted under `rowKey`, and the inner loop breaks
once `len(rows) >= target`. -/
def hashtag_round (target : Nat) : List Extracted → TagState → TagState
  | [], st => st
  | .old :: rest, st => hashtag_round target rest { st with old_hits := st.old_hits + 1 }
  | .rejected :: rest, st => hashtag_round target rest st
  | .fresh r :: rest, st =>
    if rowKey r ∈ st.seen then hashtag_round target rest st
    else
      let st' := { st with seen := rowKey r :: st.seen,
                           rows := st.rows ++ [r],
                           new_this_round := st.new_this_round + 1 }
      if target ≤ st'.rows.length then st'
      else hashtag_round target rest st'

/-- Cooldown of recover (run_collect_profile_ok.py:43):
`wait_s = min(60, 6 * (attempt + 1))`, in seconds. -/
def recover_wait (attempt : Nat) : Nat := min 60 (6 * (attempt + 1))

/-- Modelled from the spec: the escalating cooldown
`min(cap, base × (consecutiveErrorRecoveries + 1))`, written from the spec's
words for the refinement comparison with `recover_wait`. -/
def specCooldown (cap base n : Nat) : Nat := min cap (base * (n + 1))

/-- Update of `recover_attempts` per round of collect_for_hashtag
(run_collect_profile_ok.py:157-165): on an error overlay the counter is
incremented after recover runs; a healthy round resets it to 0. -/
def overlay_step (healthy : Bool) (recover_attempts : Nat) : Nat :=
  if healthy then 0 else recover_attempts + 1

/-- Helper for `drop_duplicates`: keep each row whose key has not been kept
before (pandas keep="first" semantics). -/
def dedup_by_key_aux (key : Row → String) (seen : List String) : List Row → List Row
  | [] => []
  | r :: rs =>
    if key r ∈ seen then dedup_by_key_aux key seen rs
    else r :: dedup_by_key_aux key (key r :: seen) rs

/-- `pandas.DataFrame.drop_duplicates(subset=[k], keep="first")` on the
row lists the scripts persist: the first row with each key value survives,
later ones are dropped (empty-string keys compare equal too, as pandas
compares the values themselves). -/
def drop_duplicates (key : Row → String) (l : List Row) : List Row :=
  dedup_by_key_aux key [] l

/-- How a run of final_collect_scipt.py ended: the `try` completed, or
`except KeyboardInterrupt`, or `except Exception`.  All three paths fall
through to the same `finally` block. -/
inductive ExitCause where
  | complete
  | keyboardInterrupt
  | unexpectedError
deriving DecidableEq, Repr

/-- The `finally` block of main in final_collect_scipt.py:425-448: every
exit path funnels here and, only `if rows:`, writes OUT_CSV once with
`pd.DataFrame(rows).drop_duplicates("tweet_id")`; an empty run writes
nothing (only a warning is logged). -/
def main_finalize_combined (_cause : ExitCause) (rows : List Row) : Option (List Row) :=
  if rows.isEmpty then none
  else some (drop_duplicates (fun r => r.tweet_id) rows)

/-- Recency predicate of the final filter in main of
run_collect_profile_ok.py:253-255: `pd.to_datetime(..., errors="coerce")`
(abstracted to the `parse` argument), rows whose timestamp fails to parse
are dropped, the rest must satisfy `ts_dt >= now - timedelta(hours=24)`.
Instants are integers in seconds; `cutoff` is `now - 86400`. -/
def recency_keep (parse : String → Option Int) (cutoff : Int) (r : Row) : Bool :=
  match parse r.timestamp_utc with
  | some t => if cutoff ≤ t then true else false
  | none => false

/-- Final block of main in run_collect_profile_ok.py:242-260: if no rows
were collected nothing is written; otherwise the merged CSV holds the rows
deduplicated on `tweet_id`, then on `url`, then re-filtered to the last 24
hours at the time of this final pass. -/
def main_finalize_merged (parse : String → Option Int) (now : Int)
    (rows : List Row) : Option (List Row) :=
  if rows.isEmpty then none
  else
    some ((drop_duplicates (fun r => r.url)
            (drop_duplicates (fun r => r.tweet_id) rows)).filter
          (recency_keep parse (now - 86400)))

/-- Run-level finalization of run_collect_profile_ok.py: the `try` around
the hashtag loop has only a `finally` that quits the driver (lines 224-240),
so an unexpected exception re-raises after it and the merged CSV write at
line 258 never runs. -/
def main_finalize_merged_run (cause : ExitCause) (parse : String → Option Int)
    (now : Int) (rows : List Row) : Option (List Row) :=
  match cause with
  | .unexpectedError => none
  | _ => main_finalize_merged parse now rows

/-- `url.split("/")[-1]`, how extract_tweet derives `tweet_id` from the
status url (final_collect_scipt.py:249); written on character lists so it
evaluates by kernel reduction.  Python `split` never returns an empty list,
so the [-1] index is the last chunk (the default never fires). -/
def url_last_segment (s : String) : String := ⟨(s.data.splitOn '/').getLastD []⟩

/-- SCROLL_WAIT_MIN of final_collect_scipt.py:40 (0.8 seconds). -/
def SCROLL_WAIT_MIN : ℚ := 4 / 5

/-- SCROLL_WAIT_MAX of final_collect_scipt.py:41 (2.0 seconds). -/
def SCROLL_WAIT_MAX : ℚ := 2

/-- Bounds of the sleep scrape_query performs between rounds: human_scroll
(final_collect_scipt.py:121-141) always sleeps
`random.uniform(SCROLL_WAIT_MIN, SCROLL_WAIT_MAX)` and its call site at line
374 is `human_scroll(driver)` with no argument depending on the round, so
the bounds are the same whatever `new_this_batch` was. -/
def next_delay_bounds (_newRecordsThisRound : Nat) : ℚ × ℚ :=
  (SCROLL_WAIT_MIN, SCROLL_WAIT_MAX)

/-- Bounds of human_sleep(1.2, 2.0) in collect_by_typing
(run_collect.py:207), again independent of the round's admissions. -/
def human_sleep_bounds_run_collect : ℚ × ℚ := (6 / 5, 2)

/-- Bounds of human_sleep(0.9, 1.8) in collect_for_hashtag
(run_collect_profile_ok.py:203), independent of the round's admissions. -/
def human_sleep_bounds_profile : ℚ × ℚ := (9 / 10, 9 / 5)

/-- ASCII whitespace, the characters Python's `str.strip()` removes on the
engagement strings the scripts see. -/
def isWs (c : Char) : Bool := c = ' ' || c = '\t' || c = '\n' || c = '\r'

/-- `s.replace(",", "")` on the character list of an engagement string. -/
def removeCommas (l : List Char) : List Char := l.filter (fun c => c ≠ ',')

/-- `s.strip()`: drop whitespace from both ends. -/
def stripEnds (l : List Char) : List Char :=
  ((l.dropWhile isWs).reverse.dropWhile isWs).reverse

/-- Value of a digit run read left to right. -/
def natOfDigits (l : List Char) : Nat :=
  l.foldl (fun a c => 10 * a + (c.toNat - 48)) 0

/-- All characters are decimal digits. -/
def allDigits (l : List Char) : Bool := l.all (fun c => c.isDigit)

/-- Unsigned decimal forms accepted by Python's `float()` that the
engagement strings use: a digit run with at most one dot and at least one
digit ("12", "12.3", "12.", ".5").  Exponent, underscore, infinity and nan
forms of `float()` are outside the shapes the scripts encounter and yield
`none` here.  The parsed value is represented exactly as a scaled decimal
`(n, sc)` standing for n / 10 ^ sc; on the short decimal strings involved
the double rounds to the same truncated integer. -/
def parseUnsigned (l : List Char) : Option (Nat × Nat) :=
  match l.splitOn '.' with
  | [i] => if i ≠ [] ∧ allDigits i then some (natOfDigits i, 0) else none
  | [i, f] =>
    if (i ≠ [] ∨ f ≠ []) ∧ allDigits i ∧ allDigits f then
      some (natOfDigits i * 10 ^ f.length + natOfDigits f, f.length)
    else none
  | _ => none

/-- `float(s)` with an optional leading sign, on top of `parseUnsigned`:
the value parsed is p.1 / 10 ^ p.2. -/
def parseFloatD : List Char → Option (Int × Nat)
  | '+' :: rest => (parseUnsigned rest).map (fun p => ((p.1 : Int), p.2))
  | '-' :: rest => (parseUnsigned rest).map (fun p => (-(p.1 : Int), p.2))
  | l => (parseUnsigned l).map (fun p => ((p.1 : Int), p.2))

/-- Python's `int()` applied to `(n / 10 ^ sc) * mult` truncates toward
zero: T-division of the exact integer numerator by the scale. -/
def scaledTrunc (n : Int) (sc : Nat) (mult : Int) : Int :=
  (n * mult).tdiv ((10 : Int) ^ sc)

/-- parse_count of run_collect.py:57-71, attach_collect.py:20-32 and
final_collect_scipt.py:157-169 (all three are textually identical): remove
commas, strip whitespace, empty gives 0, a trailing K or M sets the
multiplier and is cut off, then `int(float(s) * mult)`, with any parse
failure giving 0. -/
def parse_countL (s : List Char) : Int :=
  let s1 := stripEnds (removeCommas s)
  if s1 = [] then 0
  else
    let m : Int × List Char :=
      if s1.getLast? = some 'K' then (1000, s1.dropLast)
      else if s1.getLast? = some 'M' then (1000000, s1.dropLast)
      else (1, s1)
    match parseFloatD m.2 with
    | some p => scaledTrunc p.1 p.2 m.1
    | none => 0

/-- parse_count on a Python string. -/
def parse_count (s : String) : Int := parse_countL s.data

theorem dedup_aux_sublist (key : Row → String) :
    ∀ (l : List Row) (seen : List String),
      List.Sublist (dedup_by_key_aux key seen l) l
  | [], _ => List.Sublist.refl _
  | r :: rs, seen => by
    simp only [dedup_by_key_aux]
    split
    · exact (dedup_aux_sublist key rs seen).cons r
    · exact (dedup_aux_sublist key rs _).cons₂ r

theorem dedup_aux_not_seen (key : Row → String) :
    ∀ (l : List Row) (seen : List String) (r : Row),
      r ∈ dedup_by_key_aux key seen l → key r ∉ seen
  | [], _, r => by simp [dedup_by_key_aux]
  | r' :: rs, seen, r => by
    simp only [dedup_by_key_aux]
    split
    · exact dedup_aux_not_seen key rs seen r
    · intro hmem
      rcases List.mem_cons.mp hmem with h | h
      · subst h
        assumption
      · intro hs
        exact dedup_aux_not_seen key rs _ r h (List.mem_cons_of_mem _ hs)

theorem dedup_aux_pairwise (key : Row → String) :
    ∀ (l : List Row) (seen : List String),
      (dedup_by_key_aux key seen l).Pairwise (fun a b => key a ≠ key b)
  | [], _ => List.Pairwise.nil
  | r :: rs, seen => by
    simp only [dedup_by_key_aux]
    split
    · exact dedup_aux_pairwise key rs seen
    · refine List.Pairwise.cons (fun b hb => ?_) (dedup_aux_pairwise key rs _)
      have := dedup_aux_not_seen key rs _ b hb
      simp only [List.mem_cons, not_or] at this
      exact fun h => this.1 h.symm

theorem dedup_aux_eq_self (key : Row → String) :
    ∀ (l : List Row) (seen : List String),
      l.Pairwise (fun a b => key a ≠ key b) → (∀ r ∈ l, key r ∉ seen) →
      dedup_by_key_aux key seen l = l
  | [], _, _, _ => rfl
  | r :: rs, seen, hp, hs => by
    have hr : key r ∉ seen := hs r (List.mem_cons_self r rs)
    simp only [dedup_by_key_aux, if_neg hr]
    refine congrArg (r :: ·) (dedup_aux_eq_self key rs _ (List.Pairwise.of_cons hp) ?_)
    intro r' hr'
    simp only [List.mem_cons, not_or]
    exact ⟨fun h => (List.pairwise_cons.mp hp).1 r' hr' h.symm, hs r' (List.mem_cons_of_mem _ hr')⟩

theorem drop_duplicates_pairwise (key : Row → String) (l : List Row) :
    (drop_duplicates key l).Pairwise (fun a b => key a ≠ key b) :=
  dedup_aux_pairwise key l []

theorem drop_duplicates_sublist (key : Row → String) (l : List Row) :
    List.Sublist (drop_duplicates key l) l :=
  dedup_aux_sublist key l []

theorem drop_duplicates_eq_self (key : Row → String) (l : List Row)
    (h : l.Pairwise (fun a b => key a ≠ key b)) : drop_duplicates key l = l :=
  dedup_aux_eq_self key l [] h (by simp)

/-- Claim C1.  The claim states that every run ends with exactly one final
checkpoint of its true final state, "including runs that collected zero
records".  The code disagrees at the concrete input rows = []: the final
block of final_collect_scipt.py guards the save with `if rows:` and a
zero-record run writes no checkpoint at all; moreover in
run_collect_profile_ok.py an unexpected exception propagates past the
driver-quitting `finally` and the merged save is skipped even for non-empty
rows. -/
theorem C1_counterexample :
    main_finalize_combined .complete [] = none ∧
    main_finalize_merged_run .unexpectedError (fun _ => some 0) 0
      [⟨"1", "u", "c", "t"⟩] = none := ⟨rfl, rfl⟩

/-- Claim C1, amended: on every exit cause (normal completion, manual
cancellation, unexpected failure) the stealth script's finally block writes
exactly one final checkpoint, namely the id-deduplicated collected rows —
equal to the full collected sequence whenever ids are pairwise distinct, as
the admission gate guarantees — but only when at least one record was
collected; a zero-record run (shown for both scripts) ends without any
final checkpoint. -/
theorem C1_final_checkpoint :
    (∀ (cause : ExitCause) (rows : List Row), rows ≠ [] →
      main_finalize_combined cause rows =
        some (drop_duplicates (fun r => r.tweet_id) rows) ∧
      (rows.Pairwise (fun a b => a.tweet_id ≠ b.tweet_id) →
        main_finalize_combined cause rows = some rows)) ∧
    (∀ (parse : String → Option Int) (now : Int),
      main_finalize_merged parse now [] = none) := by
  constructor
  · intro cause rows hrows
    have hne : rows.isEmpty = false := by
      cases rows with
      | nil => exact absurd rfl hrows
      | cons a l => rfl
    constructor
    · simp [main_finalize_combined, hne]
    · intro hpw
      simp [main_finalize_combined, hne,
        drop_duplicates_eq_self (fun r => r.tweet_id) rows hpw]
  · intro parse now
    rfl

theorem C1_final_checkpoint_witness :
    main_finalize_combined .keyboardInterrupt [⟨"1", "u", "c", "t"⟩] =
      some [⟨"1", "u", "c", "t"⟩] :=
  ((C1_final_checkpoint.1 .keyboardInterrupt [⟨"1", "u", "c", "t"⟩]
    (by decide)).2 (by decide))

/-- Claim C2: in the final persisted output of a completed run no two
records share a non-empty id and no two share a non-empty url.  For the
merged pipeline (run_collect_profile_ok.py) this holds because the final
block deduplicates on tweet_id and then on url; for the stealth pipeline
(final_collect_scipt.py) it holds because the final save deduplicates on
tweet_id and extract_tweet derives tweet_id as the last path segment of
url, so equal urls force equal ids. -/
theorem C2_final_output_no_shared_keys :
    (∀ (parse : String → Option Int) (now : Int) (rows out : List Row),
      main_finalize_merged parse now rows = some out →
      out.Pairwise (fun a b =>
        ¬(a.tweet_id = b.tweet_id ∧ a.tweet_id ≠ "") ∧
        ¬(a.url = b.url ∧ a.url ≠ ""))) ∧
    (∀ (cause : ExitCause) (rows out : List Row),
      (∀ r ∈ rows, r.tweet_id = url_last_segment r.url) →
      main_finalize_combined cause rows = some out →
      out.Pairwise (fun a b =>
        ¬(a.tweet_id = b.tweet_id ∧ a.tweet_id ≠ "") ∧
        ¬(a.url = b.url ∧ a.url ≠ ""))) := by
  constructor
  · intro parse now rows out hout
    simp only [main_finalize_merged] at hout
    split at hout
    · exact absurd hout (by simp)
    · have hout' := (Option.some.injEq _ _).mp hout
      subst hout'
      have hid : (drop_duplicates (fun r => r.url)
          (drop_duplicates (fun r => r.tweet_id) rows)).Pairwise
          (fun a b => a.tweet_id ≠ b.tweet_id) :=
        (drop_duplicates_pairwise (fun r => r.tweet_id) rows).sublist
          (drop_duplicates_sublist (fun r => r.url) _)
      have hurl := drop_duplicates_pairwise (fun r => r.url)
        (drop_duplicates (fun r => r.tweet_id) rows)
      have hfid := hid.sublist
        (List.filter_sublist (p := recency_keep parse (now - 86400)) _)
      have hfurl := hurl.sublist
        (List.filter_sublist (p := recency_keep parse (now - 86400)) _)
      refine (List.pairwise_and_iff.mpr ⟨?_, ?_⟩)
      · exact hfid.imp (fun h => fun hc => h hc.1)
      · exact hfurl.imp (fun h => fun hc => h hc.1)
  · intro cause rows out hid hout
    simp only [main_finalize_combined] at hout
    split at hout
    · exact absurd hout (by simp)
    · have hout' := (Option.some.injEq _ _).mp hout
      subst hout'
      have hpw := drop_duplicates_pairwise (fun r => r.tweet_id) rows
      have hsub := drop_duplicates_sublist (fun r => r.tweet_id) rows
      refine hpw.imp_of_mem (fun {a b} ha hb h => ?_)
      have ha' := hsub.subset ha
      have hb' := hsub.subset hb
      refine ⟨fun hc => h hc.1, fun hc => ?_⟩
      exact h ((hid a ha').trans (by rw [hc.1, ← hid b hb']))

theorem C2_final_output_no_shared_keys_witness :
    List.Pairwise (fun a b : Row =>
      ¬(a.tweet_id = b.tweet_id ∧ a.tweet_id ≠ "") ∧
      ¬(a.url = b.url ∧ a.url ≠ ""))
      [⟨"5", "x.com/a/status/5", "c", "t"⟩] :=
  C2_final_output_no_shared_keys.2 .complete
    [⟨"5", "x.com/a/status/5", "c", "t"⟩]
    [⟨"5", "x.com/a/status/5", "c", "t"⟩] (by decide) (by decide)

/-- Claim C3.  The claim states that on loop exit the collected sequence is
re-filtered by recency (and re-deduplicated) before the final hand-off, so
every record of the final output satisfies timestamp at least now minus the
window.  Concrete refutation: the stealth script's final block keeps a
collected row unchanged, while the merged pipeline's authoritative recency
re-filter, run on the same single row at the same final instant (parse
says the row's timestamp is instant 0, now is 1000000, the window 86400
seconds), drops it — so final_collect_scipt.py performs no recency
re-filter on exit and its final output can violate the bound. -/
theorem C3_counterexample :
    main_finalize_combined .complete [⟨"1", "u", "c", "told"⟩] =
      some [⟨"1", "u", "c", "told"⟩] ∧
    main_finalize_merged (fun _ => some 0) 1000000 [⟨"1", "u", "c", "told"⟩] =
      some [] := ⟨rfl, rfl⟩

/-- Claim C3, amended: only the merged pipeline
(run_collect_profile_ok.py) performs the authoritative final pass: its exit
path re-deduplicates (tweet_id, then url) and re-filters by recency at the
final instant, so every record of the merged output has a parseable
timestamp of at least now minus 86400 seconds; the stealth pipeline
(final_collect_scipt.py) only re-deduplicates on exit, with no recency
re-filter. -/
theorem C3_merged_final_refilter :
    ∀ (parse : String → Option Int) (now : Int) (rows out : List Row),
      main_finalize_merged parse now rows = some out →
      ∀ r ∈ out, ∃ t, parse r.timestamp_utc = some t ∧ now - 86400 ≤ t := by
  intro parse now rows out hout r hr
  simp only [main_finalize_merged] at hout
  split at hout
  · exact absurd hout (by simp)
  · have hout' := (Option.some.injEq _ _).mp hout
    subst hout'
    have hk := List.of_mem_filter hr
    unfold recency_keep at hk
    split at hk
    · next t ht =>
      refine ⟨t, ht, ?_⟩
      by_contra hlt
      rw [if_neg hlt] at hk
      exact Bool.false_ne_true hk
    · exact absurd hk (by simp)

theorem C3_merged_final_refilter_witness :
    ∃ t, (fun (_ : String) => some (5 : Int)) "t" = some t ∧
      (86400 : Int) - 86400 ≤ t :=
  C3_merged_final_refilter (fun _ => some 5) 86400
    [⟨"1", "u", "c", "t"⟩] [⟨"1", "u", "c", "t"⟩] (by decide)
    ⟨"1", "u", "c", "t"⟩ (by decide)

/-- Claim C4.  The claim states that admission registers both the id and the
sourceUrl membership keys and returns false when either key was already
present.  The code keeps a single key per record — `tweet_id or url or
(content + timestamp)` — so after admitting a record with id "1" and url
"u" (only "1" is registered), a second record with empty id and the same
url "u" is admitted again, where the claim requires rejection. -/
theorem C4_counterexample :
    (admission (admission [] ⟨"1", "u", "c", "t"⟩).2 ⟨"", "u", "c2", "t2"⟩).1 = true ∧
    (⟨"", "u", "c2", "t2"⟩ : Row).url = (⟨"1", "u", "c", "t"⟩ : Row).url ∧
    (⟨"1", "u", "c", "t"⟩ : Row).url ≠ "" := by decide

/-- Claim C4, amended: admission computes one dedup key per record — the id if
non-empty, else the url if non-empty, else text concatenated with the
timestamp — returns true and registers exactly that key when it is unseen,
and returns false with no registration when that key was already seen; it
is the sole gate for appending to collected (a one-item round appends the
record exactly when admission returns true). -/
theorem C4_admission_single_key :
    ∀ (seen : List String) (r : Row) (limit : Nat) (rows : List Row),
      (rowKey r ∉ seen → admission seen r = (true, rowKey r :: seen)) ∧
      (rowKey r ∈ seen → admission seen r = (false, seen)) ∧
      collect_round limit [some r] seen rows =
        if (admission seen r).1 = true then ((admission seen r).2, rows ++ [r])
        else (seen, rows) := by
  intro seen r limit rows
  by_cases h : rowKey r ∈ seen
  · refine ⟨fun hc => absurd h hc, fun _ => by simp [admission, h], ?_⟩
    simp [admission, h, collect_round]
  · refine ⟨fun _ => by simp [admission, h], fun hc => absurd hc h, ?_⟩
    simp only [admission, if_neg h, collect_round]
    split
    · rfl
    · rfl

theorem C4_admission_single_key_witness :
    admission [] ⟨"1", "u", "c", "t"⟩ = (true, [rowKey ⟨"1", "u", "c", "t"⟩]) :=
  (C4_admission_single_key [] ⟨"1", "u", "c", "t"⟩ 0 []).1 (by decide)

theorem collect_round_length_le (limit : Nat) :
    ∀ (items : List (Option Row)) (seen : List String) (rows : List Row),
      rows.length < limit → (collect_round limit items seen rows).2.length ≤ limit
  | [], _, _, h => Nat.le_of_lt h
  | none :: rest, seen, rows, h => collect_round_length_le limit rest seen rows h
  | some r :: rest, seen, rows, h => by
    simp only [collect_round]
    split
    · exact collect_round_length_le limit rest seen rows h
    · split
      · next hbreak =>
        simpa using h
      · next hno =>
        exact collect_round_length_le limit rest _ _ (by simp at hno ⊢; omega)

theorem collect_loop_length_le (limit : Nat) :
    ∀ (batches : List (List (Option Row))) (seen : List String) (rows : List Row),
      rows.length ≤ limit → (collect_loop limit batches seen rows).length ≤ limit
  | [], _, _, h => h
  | batch :: batches, seen, rows, h => by
    simp only [collect_loop]
    split
    · next hlt =>
      exact collect_loop_length_le limit batches _ _
        (collect_round_length_le limit batch seen rows hlt)
    · exact h

theorem scrape_round_length_le :
    ∀ (items : List Extracted) (st : ScrapeState),
      (scrape_round items st).rows.length ≤ st.rows.length + items.length
  | [], st => Nat.le_refl _
  | .old :: rest, st => by
    have h := scrape_round_length_le rest { st with oldCount := st.oldCount + 1 }
    simp only [scrape_round, List.length_cons]
    dsimp only at h
    omega
  | .rejected :: rest, st => by
    have h := scrape_round_length_le rest st
    simp only [scrape_round, List.length_cons]
    omega
  | .fresh r :: rest, st => by
    simp only [scrape_round, List.length_cons]
    split
    · have h := scrape_round_length_le rest st
      omega
    · have h := scrape_round_length_le rest
        { st with seen_ids := r.tweet_id :: st.seen_ids,
                  rows := st.rows ++ [r], newCount := st.newCount + 1 }
      simp only [List.length_append, List.length_cons, List.length_nil] at h
      omega

theorem scrape_loop_length_le (target W : Nat) :
    ∀ (batches : List (List Extracted)) (st : ScrapeState),
      (∀ b ∈ batches, b.length ≤ W) → st.rows.length ≤ target - 1 + W →
      (scrape_loop target batches st).rows.length ≤ target - 1 + W
  | [], st, _, h => h
  | batch :: batches, st, hb, h => by
    simp only [scrape_loop]
    split
    · next hlt =>
      refine scrape_loop_length_le target W batches _
        (fun b hmem => hb b (List.mem_cons_of_mem _ hmem)) ?_
      have h1 := scrape_round_length_le batch { st with newCount := 0 }
      have h2 := hb batch (List.mem_cons_self _ _)
      simp only at h1
      omega
    · exact h

/-- Claim C5.  The claim states that the collected size never exceeds the
target during the loop.  Concrete refutation on scrape_query
(final_collect_scipt.py): the round body has no per-item target check, so
with target 2 and a single round offering three fresh rows with distinct
ids, the loop (entered with 0 < 2 collected) ends with 3 collected — the
size passes the target inside the round. -/
theorem C5_counterexample :
    2 < (scrape_loop 2
      [[.fresh ⟨"1", "u1", "c", "t"⟩, .fresh ⟨"2", "u2", "c", "t"⟩,
        .fresh ⟨"3", "u3", "c", "t"⟩]] ⟨[], [], 0, 0⟩).rows.length := by decide

/-- Claim C5, amended: collect_by_typing and collect re-check the limit
after every append, so their collected size never exceeds the limit at any
point; scrape_query checks the target only between rounds, so its collected
size is bounded only by target - 1 plus the per-round batch size (the
scanned window), and can therefore end above the target. -/
theorem C5_target_bound :
    (∀ (limit : Nat) (batches : List (List (Option Row))),
      (collect_loop limit batches [] []).length ≤ limit) ∧
    (∀ (target W : Nat) (batches : List (List Extracted)),
      (∀ b ∈ batches, b.length ≤ W) →
      (scrape_loop target batches ⟨[], [], 0, 0⟩).rows.length ≤ target - 1 + W) := by
  constructor
  · intro limit batches
    exact collect_loop_length_le limit batches [] [] (by simp)
  · intro target W batches hb
    exact scrape_loop_length_le target W batches ⟨[], [], 0, 0⟩ hb (by simp)

theorem C5_target_bound_witness :
    (scrape_loop 2
      [[.fresh ⟨"1", "u1", "c", "t"⟩, .fresh ⟨"2", "u2", "c", "t"⟩,
        .fresh ⟨"3", "u3", "c", "t"⟩]] ⟨[], [], 0, 0⟩).rows.length ≤ 2 - 1 + 3 :=
  C5_target_bound.2 2 3
    [[.fresh ⟨"1", "u1", "c", "t"⟩, .fresh ⟨"2", "u2", "c", "t"⟩,
      .fresh ⟨"3", "u3", "c", "t"⟩]] (by decide)

/-- Claim C6: each error-recovery cooldown equals
min(cap, base * (consecutiveErrorRecoveries + 1)) with cap 60 and base 6
seconds, consecutive entries therefore produce non-decreasing cooldowns up
to the cap, and any healthy round resets the escalation counter to 0. -/
theorem C6_cooldown_escalation :
    (∀ n, recover_wait n = specCooldown 60 6 n) ∧
    (∀ a b, a ≤ b → recover_wait a ≤ recover_wait b) ∧
    (∀ a, overlay_step true a = 0) := by
  refine ⟨fun n => rfl, fun a b h => ?_, fun a => rfl⟩
  simp only [recover_wait]
  omega

theorem C6_cooldown_escalation_witness :
    recover_wait 0 ≤ recover_wait 1 :=
  C6_cooldown_escalation.2.1 0 1 (by decide)

theorem parse_countL_congr {a b : List Char}
    (h : stripEnds (removeCommas a) = stripEnds (removeCommas b)) :
    parse_countL a = parse_countL b := by
  simp only [parse_countL, h]

theorem removeCommas_cons_space (l : List Char) :
    removeCommas (' ' :: l) = ' ' :: removeCommas l := by
  simp [removeCommas]

theorem removeCommas_append (a b : List Char) :
    removeCommas (a ++ b) = removeCommas a ++ removeCommas b := by
  simp [removeCommas]

theorem removeCommas_idem (l : List Char) :
    removeCommas (removeCommas l) = removeCommas l := by
  simp [removeCommas, List.filter_filter]

theorem stripEnds_cons_ws {c : Char} (hc : isWs c = true) (l : List Char) :
    stripEnds (c :: l) = stripEnds l := by
  simp [stripEnds, List.dropWhile_cons, hc]

theorem stripEnds_append_ws {c : Char} (hc : isWs c = true) (l : List Char) :
    stripEnds (l ++ [c]) = stripEnds l := by
  simp only [stripEnds, List.dropWhile_append]
  split
  · next h =>
    rw [List.isEmpty_iff] at h
    simp [List.dropWhile_cons, hc, h]
  · simp [List.reverse_append, List.dropWhile_cons, hc]

theorem dropWhile_eq_self_of_stripEnds {l : List Char} (h : stripEnds l = l) :
    l.dropWhile isWs = l := by
  have hsuf := List.dropWhile_suffix (l := l) isWs
  refine hsuf.eq_of_length ?_
  have h2 := (List.dropWhile_suffix (l := (l.dropWhile isWs).reverse) isWs).length_le
  have h3 : (stripEnds l).length = l.length := by rw [h]
  have h4 := hsuf.length_le
  simp only [stripEnds, List.length_reverse] at h2 h3
  omega

theorem head_not_ws_of_stripEnds {a : Char} {l : List Char}
    (h : stripEnds (a :: l) = a :: l) : isWs a = false := by
  cases hws : isWs a with
  | false => rfl
  | true =>
    have hd := dropWhile_eq_self_of_stripEnds h
    rw [List.dropWhile_cons, if_pos hws] at hd
    have hlen := congrArg List.length hd
    have hle := (List.dropWhile_suffix (l := l) isWs).length_le
    simp only [List.length_cons] at hlen
    omega

theorem stripEnds_append_keep {c : Char} (hc : isWs c = false) {l : List Char}
    (h : stripEnds l = l) : stripEnds (l ++ [c]) = l ++ [c] := by
  have hd : (l ++ [c]).dropWhile isWs = l ++ [c] := by
    cases l with
    | nil => simp [List.dropWhile_cons, hc]
    | cons a l' =>
      have ha := head_not_ws_of_stripEnds h
      simp [List.dropWhile_cons, ha]
  simp only [stripEnds, hd, List.reverse_append, List.reverse_cons,
    List.reverse_nil, List.nil_append, List.singleton_append,
    List.dropWhile_cons, hc]
  simp

/-- Claim C7: engagement parsing strips thousands separators and
surrounding whitespace, a trailing K multiplies the parsed decimal value by
1000 and a trailing M by 1000000, the product is truncated toward zero, and
an empty or unparsable string yields 0; in particular "12.3K" parses to
12300, "" to 0 and "abc" to 0.  The decimal value is held exactly as
n / 10 ^ sc, so `scaledTrunc n sc mult` is the truncation toward zero of
the multiplied parsed value. -/
theorem C7_parse_count_spec :
    parse_count "12.3K" = 12300 ∧ parse_count "" = 0 ∧ parse_count "abc" = 0 ∧
    (∀ l, parse_countL (' ' :: l) = parse_countL l) ∧
    (∀ l, parse_countL (l ++ [' ']) = parse_countL l) ∧
    (∀ l, parse_countL l = parse_countL (removeCommas l)) ∧
    (∀ l n sc, removeCommas l = l → stripEnds l = l →
      parseFloatD l = some (n, sc) →
      parse_countL (l ++ ['K']) = scaledTrunc n sc 1000 ∧
      parse_countL (l ++ ['M']) = scaledTrunc n sc 1000000) := by
  refine ⟨by decide, by decide, by decide, ?_, ?_, ?_, ?_⟩
  · intro l
    exact parse_countL_congr (by rw [removeCommas_cons_space,
      stripEnds_cons_ws (by decide)])
  · intro l
    refine parse_countL_congr ?_
    rw [removeCommas_append]
    show stripEnds (removeCommas l ++ [' ']) = stripEnds (removeCommas l)
    exact stripEnds_append_ws (by decide) _
  · intro l
    exact parse_countL_congr (by rw [removeCommas_idem])
  · intro l n sc hrc hse hparse
    have hK : stripEnds (removeCommas (l ++ ['K'])) = l ++ ['K'] := by
      rw [removeCommas_append, hrc]
      show stripEnds (l ++ ['K']) = l ++ ['K']
      exact stripEnds_append_keep (by decide) hse
    have hM : stripEnds (removeCommas (l ++ ['M'])) = l ++ ['M'] := by
      rw [removeCommas_append, hrc]
      show stripEnds (l ++ ['M']) = l ++ ['M']
      exact stripEnds_append_keep (by decide) hse
    constructor
    · simp [parse_countL, hK, List.getLast?_concat, List.dropLast_concat, hparse]
    · simp [parse_countL, hM, List.getLast?_concat, List.dropLast_concat, hparse]

theorem C7_parse_count_spec_witness :
    parse_countL ("12".data ++ ['K']) = scaledTrunc 12 0 1000 ∧
    parse_countL ("12".data ++ ['M']) = scaledTrunc 12 0 1000000 :=
  C7_parse_count_spec.2.2.2.2.2.2 "12".data 12 0 (by decide) (by decide) (by decide)


theorem scrape_round_old_indep :
    ∀ (items : List Extracted) (s : List String) (r : List Row) (k n : Nat),
      (scrape_round items ⟨s, r, k, n⟩).seen_ids =
        (scrape_round items ⟨s, r, 0, n⟩).seen_ids ∧
      (scrape_round items ⟨s, r, k, n⟩).rows =
        (scrape_round items ⟨s, r, 0, n⟩).rows ∧
      (scrape_round items ⟨s, r, k, n⟩).newCount =
        (scrape_round items ⟨s, r, 0, n⟩).newCount
  | [], s, r, k, n => ⟨rfl, rfl, rfl⟩
  | .old :: rest, s, r, k, n => by
    simp only [scrape_round]
    have h1 := scrape_round_old_indep rest s r (k + 1) n
    have h2 := scrape_round_old_indep rest s r (0 + 1) n
    exact ⟨h1.1.trans h2.1.symm, h1.2.1.trans h2.2.1.symm, h1.2.2.trans h2.2.2.symm⟩
  | .rejected :: rest, s, r, k, n => by
    simp only [scrape_round]
    exact scrape_round_old_indep rest s r k n
  | .fresh rx :: rest, s, r, k, n => by
    simp only [scrape_round]
    split
    · exact scrape_round_old_indep rest s r k n
    · exact scrape_round_old_indep rest (rx.tweet_id :: s) (r ++ [rx]) k (n + 1)

theorem scrape_loop_rows_old_indep (target : Nat) :
    ∀ (batches : List (List Extracted)) (s : List String) (r : List Row) (k n : Nat),
      (scrape_loop target batches ⟨s, r, k, n⟩).rows =
        (scrape_loop target batches ⟨s, r, 0, n⟩).rows
  | [], s, r, k, n => rfl
  | batch :: batches, s, r, k, n => by
    simp only [scrape_loop]
    split
    · have h := scrape_round_old_indep batch s r k 0
      set st1 := scrape_round batch ⟨s, r, k, 0⟩ with hst1
      set st2 := scrape_round batch ⟨s, r, 0, 0⟩ with hst2
      have e1 : st1 = ⟨st1.seen_ids, st1.rows, st1.oldCount, st1.newCount⟩ := rfl
      have e2 : st2 = ⟨st2.seen_ids, st2.rows, st2.oldCount, st2.newCount⟩ := rfl
      rw [e1, e2, h.1, h.2.1, h.2.2]
      rw [scrape_loop_rows_old_indep target batches st2.seen_ids st2.rows st1.oldCount st2.newCount,
        scrape_loop_rows_old_indep target batches st2.seen_ids st2.rows st2.oldCount st2.newCount]
    · rfl

/-- Claim C8.  The claim states that an item with an unparseable timestamp
is classified Rejected, never Stale, and never increments the stale
counter.  Concrete refutation in final_collect_scipt.py: extract_tweet
classifies a `None` parse result as "OLD" (the stale branch), and the round
body then increments the old counter. -/
theorem C8_counterexample :
    ts_gate_combined none 0 = Gate.old ∧
    (scrape_round [Extracted.old] ⟨[], [], 0, 0⟩).oldCount = 1 := by decide

/-- Claim C8, amended: in run_collect_profile_ok.py an unparseable
timestamp is Rejected (never classified old) and a rejected item leaves the
round state — including the stale counter old_hits — completely unchanged;
in final_collect_scipt.py an unparseable timestamp is classified "OLD" and
increments the per-round old counter, but that counter influences neither
the admitted rows nor any loop decision (scrape_query never reads it). -/
theorem C8_unparseable_timestamps :
    (∀ c, ts_gate_merged none c = Gate.rejected) ∧
    (∀ (target : Nat) (rest : List Extracted) (st : TagState),
      hashtag_round target (Extracted.rejected :: rest) st =
        hashtag_round target rest st) ∧
    (∀ c, ts_gate_combined none c = Gate.old) ∧
    (∀ (rest : List Extracted) (st : ScrapeState),
      scrape_round (Extracted.old :: rest) st =
        scrape_round rest { st with oldCount := st.oldCount + 1 }) ∧
    (∀ (target : Nat) (batches : List (List Extracted)) (s : List String)
        (r : List Row) (k n : Nat),
      (scrape_loop target batches ⟨s, r, k, n⟩).rows =
        (scrape_loop target batches ⟨s, r, 0, n⟩).rows) := by
  refine ⟨fun c => rfl, fun target rest st => rfl, fun c => rfl,
    fun rest st => rfl, scrape_loop_rows_old_indep⟩

/-- Claim C9.  The claim states that the delay before the next poll is
computed from the round's new-record count by a three-tier table (at least
10 new records: about a second or less; 0 to 2: about two to three
seconds).  Refutation: the sleep performed between scrape_query rounds has
the same bounds whatever the count was, and its lower bound 0.8 s is below
2 s, so a zero-new round can be followed by a sub-two-second delay, while
an upper bound of 2 s exceeds 1 s for a ten-new round — there is no tier
table anywhere in the scripts. -/
theorem C9_counterexample :
    next_delay_bounds 0 = next_delay_bounds 10 ∧
    (next_delay_bounds 0).1 < 2 ∧ 1 < (next_delay_bounds 10).2 := by
  refine ⟨rfl, ?_, ?_⟩ <;>
    norm_num [next_delay_bounds, SCROLL_WAIT_MIN, SCROLL_WAIT_MAX]

/-- Claim C9, amended: the inter-round delay is drawn from a fixed
randomized range that does not depend on the number of new records in the
round — uniform(0.8, 2.0) seconds in scrape_query via human_scroll,
uniform(1.2, 2.0) in collect_by_typing and uniform(0.9, 1.8) in
collect_for_hashtag via human_sleep; no three-tier throughput table exists
in the code. -/
theorem C9_constant_delay_bounds :
    (∀ n m, next_delay_bounds n = next_delay_bounds m) ∧
    (∀ n, next_delay_bounds n = (SCROLL_WAIT_MIN, SCROLL_WAIT_MAX)) ∧
    human_sleep_bounds_run_collect = (6 / 5, 2) ∧
    human_sleep_bounds_profile = (9 / 10, 9 / 5) :=
  ⟨fun _ _ => rfl, fun _ => rfl, rfl, rfl⟩

/-- Claim C10 (implicit): a record whose id and url are both empty but
whose text is non-empty is still admitted, with text concatenated with the
timestamp as its dedup key; a second record with the same text and
timestamp is not admitted again, so collected grows only once. -/
theorem C10_text_timestamp_fallback_key :
    ∀ (limit : Nat) (seen : List String) (rows : List Row) (r1 r2 : Row),
      r1.tweet_id = "" → r1.url = "" → r1.content ≠ "" →
      r2.tweet_id = "" → r2.url = "" →
      r2.content = r1.content → r2.timestamp_utc = r1.timestamp_utc →
      rowKey r1 ∉ seen →
      extract_one_article_keep r1 = some r1 ∧
      rowKey r1 = r1.content ++ r1.timestamp_utc ∧
      (collect_round limit
        [extract_one_article_keep r1, extract_one_article_keep r2]
        seen rows).2 = rows ++ [r1] := by
  intro limit seen rows r1 r2 h1id h1url h1c h2id h2url h2c h2t hkey
  have hkeep1 : extract_one_article_keep r1 = some r1 := by
    simp [extract_one_article_keep, h1c]
  have hkeep2 : extract_one_article_keep r2 = some r2 := by
    have : r2.content ≠ "" := by rw [h2c]; exact h1c
    simp [extract_one_article_keep, this]
  have hk1 : rowKey r1 = r1.content ++ r1.timestamp_utc := by
    simp [rowKey, h1id, h1url]
  have hk2 : rowKey r2 = rowKey r1 := by
    simp [rowKey, h1id, h1url, h2id, h2url, h2c, h2t]
  refine ⟨hkeep1, hk1, ?_⟩
  rw [hkeep1, hkeep2]
  simp only [collect_round, if_neg hkey]
  split
  · rfl
  · rw [hk2]
    simp [collect_round]

theorem C10_text_timestamp_fallback_key_witness :
    (collect_round 50
      [extract_one_article_keep ⟨"", "", "hello", "2024"⟩,
       extract_one_article_keep ⟨"", "", "hello", "2024"⟩] [] []).2 =
      [] ++ [⟨"", "", "hello", "2024"⟩] :=
  (C10_text_timestamp_fallback_key 50 [] [] ⟨"", "", "hello", "2024"⟩
    ⟨"", "", "hello", "2024"⟩ rfl rfl (by decide) rfl rfl rfl rfl
    (by decide)).2.2
